import Mathlib

/-!
Shallow embedding of the MiCa local persistent graph store
(src/state/store.ts, src/state/database.ts, src/state/types.ts,
src/data/templates.ts).

Identifiers in the source are collision-resistant random strings produced
by nanoid(); the embedding models the id supply as a counter threaded
through every operation, so nanoid() returns the current counter value and
bumps it.  Record ids are therefore naturals.  JS numbers used for 3D
coordinates are modelled as rationals; epoch-millisecond timestamps as
naturals, passed explicitly to the operations that call Date.now().
Dexie tables are modelled as insertion-ordered lists of records;
delete-by-key is filtering the key out, put is replace-or-append by key,
add is append (Dexie add throws exactly on a primary-key collision, which
the key-distinctness theorems below rule out where relevant).
-/

namespace MiCa

/-- 3D vector, used for camera position/target and node positions. -/
structure Vec3 where
  x : Rat
  y : Rat
  z : Rat
deriving DecidableEq, Repr

/-- Embed provider enumeration from src/state/types.ts. -/
inductive Provider where
  | youtube
  | vimeo
  | figma
  | unknown
deriving DecidableEq, Repr

/-- Content block sum type from src/state/types.ts: markdown, image,
link or embed, each carrying its own id. -/
inductive ContentBlock where
  | markdown (id : Nat) (text : String)
  | image (id : Nat) (url : String) (alt : Option String)
  | link (id : Nat) (url : String) (label : Option String)
  | embed (id : Nat) (url : String) (provider : Provider)
deriving DecidableEq, Repr

/-- isMarkdownBlock from src/state/store.ts. -/
def isMarkdownBlock : ContentBlock → Bool
  | .markdown _ _ => true
  | _ => false

/-- Text of a markdown block (only ever read behind isMarkdownBlock). -/
def ContentBlock.text : ContentBlock → String
  | .markdown _ t => t
  | .image _ _ _ => ""
  | .link _ _ _ => ""
  | .embed _ _ _ => ""

/-- Environment choice of a view. -/
inductive Environment where
  | dome
  | whiteRoom
deriving DecidableEq, Repr

/-- Edge-visibility mode of a view. -/
inductive EdgeVisibility where
  | neighborhood
  | twoHop
  | all
deriving DecidableEq, Repr

/-- Interaction mode of a view (v2 addition, used via view.mode in the
store with an observe fallback). -/
inductive ViewMode where
  | observe
  | edit
deriving DecidableEq, Repr

/-- Camera of a ViewState: position and target 3-vectors. -/
structure Camera where
  position : Vec3
  target : Vec3
deriving DecidableEq, Repr

/-- ViewState from src/state/types.ts; mode is optional, read with an
observe fallback in the store. -/
structure ViewState where
  focusNodeId : Option Nat := none
  camera : Camera
  environment : Environment
  edgeVisibility : EdgeVisibility
  mode : Option ViewMode := none
deriving DecidableEq, Repr

/-- NodeRecord from src/state/types.ts. -/
structure NodeRecord where
  id : Nat
  spaceId : Nat
  title : String
  tags : List String
  importance : Nat
  createdAt : Nat
  updatedAt : Nat
  position : Vec3
  blocks : List ContentBlock
deriving DecidableEq, Repr

/-- EdgeRecord from src/state/types.ts; the stored fields are named
from/to in the source (from is a Lean keyword, hence fromId/toId, the
names linkNodes uses for them). -/
structure EdgeRecord where
  id : Nat
  spaceId : Nat
  fromId : Nat
  toId : Nat
  relation : Option String
deriving DecidableEq, Repr

/-- SpaceRecord from src/state/types.ts. -/
structure SpaceRecord where
  id : Nat
  name : String
  icon : String
  createdAt : Nat
  updatedAt : Nat
  view : ViewState
deriving DecidableEq, Repr

/-- SpaceViewStateRecord: a ViewState keyed by spaceId (the Dexie table
spaceViewState, primary key spaceId). -/
structure SpaceViewStateRecord where
  spaceId : Nat
  view : ViewState
deriving DecidableEq, Repr

/-- AppSettings singleton record (key "app") from the v2 schema. -/
structure AppSettings where
  key : String
  schemaVersion : Nat
  lastOpenedSpaceId : Option Nat
deriving DecidableEq, Repr

/-- SearchResult from src/state/types.ts. -/
structure SearchResult where
  id : Nat
  title : String
  snippet : String
deriving DecidableEq, Repr

/-- schemaVersion = 2 in src/state/database.ts. -/
def currentSchemaVersion : Nat := 2

/-- The five v2 Dexie tables of src/state/database.ts, as
insertion-ordered lists. -/
structure DB where
  spaces : List SpaceRecord
  nodes : List NodeRecord
  edges : List EdgeRecord
  spaceViewState : List SpaceViewStateRecord
  appSettings : List AppSettings
deriving DecidableEq, Repr

/-- The empty store. -/
def DB.empty : DB := ⟨[], [], [], [], []⟩

/-- Dexie put into a keyed table: replace the record with the same key,
or append when the key is absent. -/
def putByKey {α : Type} (key : α → Nat) (r : α) (l : List α) : List α :=
  if l.any (fun x => key x == key r) then
    l.map (fun x => if key x == key r then r else x)
  else
    l ++ [r]

/-- Dexie put for the appSettings table (string primary key). -/
def putSettings (r : AppSettings) (l : List AppSettings) : List AppSettings :=
  if l.any (fun x => x.key == r.key) then
    l.map (fun x => if x.key == r.key then r else x)
  else
    l ++ [r]

/-- Dexie get on the appSettings table. -/
def getSettings (k : String) (l : List AppSettings) : Option AppSettings :=
  l.find? (fun x => x.key == k)

/-- Dexie get on the spaceViewState table. -/
def getViewState (sid : Nat) (l : List SpaceViewStateRecord) :
    Option SpaceViewStateRecord :=
  l.find? (fun x => x.spaceId == sid)

/-- defaultViewState from src/state/store.ts. -/
def defaultViewState : ViewState :=
  { focusNodeId := none
    camera := { position := ⟨8, 6, 10⟩, target := ⟨0, 0, 0⟩ }
    environment := .dome
    edgeVisibility := .neighborhood
    mode := some .observe }

/-- defaultAppSettings from src/state/store.ts. -/
def defaultAppSettings : AppSettings :=
  { key := "app"
    schemaVersion := currentSchemaVersion
    lastOpenedSpaceId := none }

/-- The in-memory zustand MiCaState slice of src/state/store.ts (the
data fields; the methods are the operations below). -/
structure MiCaState where
  initialized : Bool
  appMode : String
  spaces : List SpaceRecord
  nodes : List NodeRecord
  edges : List EdgeRecord
  activeSpaceId : Option Nat
  selectedNodeId : Option Nat
  searchQuery : String
  view : ViewState
  appSettings : AppSettings
  hush : Rat
  hushTarget : Rat
deriving DecidableEq, Repr

/-- Full world: the persistent tables, the in-memory store state, and
the nanoid counter (next fresh id). -/
structure World where
  db : DB
  st : MiCaState
  ctr : Nat
deriving DecidableEq, Repr

/-- hushTarget for a view mode: 1 for observe (or absent mode), 0 for
edit, as computed at each set() site in the store. -/
def hushFor (m : Option ViewMode) : Rat :=
  if (m.getD .observe) == .observe then 1 else 0

/-- linkNodes from src/state/store.ts: silent no-op when no Space is
active, when fromId equals toId, or when an Edge with the same
(from, to, relation) triple is already among the active-Space edges held
in memory; otherwise adds the Edge and reloads the in-memory edges from
the table. -/
def linkNodes (fromId toId : Nat) (relation : Option String) (w : World) : World :=
  match w.st.activeSpaceId with
  | none => w
  | some sid =>
    if fromId == toId then w
    else if w.st.edges.any
        (fun e => e.fromId == fromId && e.toId == toId && e.relation == relation) then w
    else
      let edge : EdgeRecord :=
        { id := w.ctr, spaceId := sid, fromId := fromId, toId := toId, relation := relation }
      let db' : DB := { w.db with edges := w.db.edges ++ [edge] }
      let edges' := db'.edges.filter (fun e => e.spaceId == sid)
      { db := db', st := { w.st with edges := edges' }, ctr := w.ctr + 1 }

/-- deleteNode from src/state/store.ts: no-op without an active Space;
otherwise deletes the Node by id and every Edge of the active Space
incident to it, then reloads the in-memory node/edge lists. -/
def deleteNode (nodeId : Nat) (w : World) : World :=
  match w.st.activeSpaceId with
  | none => w
  | some sid =>
    let nodes' := w.db.nodes.filter (fun n => !(n.id == nodeId))
    let edges' := w.db.edges.filter
      (fun e => !(e.spaceId == sid && (e.fromId == nodeId || e.toId == nodeId)))
    let db' := { w.db with nodes := nodes', edges := edges' }
    let stNodes := nodes'.filter (fun n => n.spaceId == sid)
    let stEdges := edges'.filter (fun e => e.spaceId == sid)
    { db := db'
      st := { w.st with
              nodes := stNodes
              edges := stEdges
              selectedNodeId := stNodes.head?.map (fun n => n.id) }
      ctr := w.ctr }

/-- deleteSpace from src/state/store.ts: removes the Space record, its
Nodes, Edges and view state in one transaction, switches the active
Space to the first remaining one (or none) and rewrites appSettings. -/
def deleteSpace (spaceId : Nat) (w : World) : World :=
  let spaces' := w.db.spaces.filter (fun s => !(s.id == spaceId))
  let nodes' := w.db.nodes.filter (fun n => !(n.spaceId == spaceId))
  let edges' := w.db.edges.filter (fun e => !(e.spaceId == spaceId))
  let views' := w.db.spaceViewState.filter (fun v => !(v.spaceId == spaceId))
  let nextActive := spaces'.head?.map (fun s => s.id)
  let stNodes := match nextActive with
    | some sid => nodes'.filter (fun n => n.spaceId == sid)
    | none => []
  let stEdges := match nextActive with
    | some sid => edges'.filter (fun e => e.spaceId == sid)
    | none => []
  let view := match nextActive with
    | some sid => ((getViewState sid views').map (fun r => r.view)).getD defaultViewState
    | none => defaultViewState
  let nextSettings : AppSettings :=
    { key := "app", schemaVersion := currentSchemaVersion, lastOpenedSpaceId := nextActive }
  let settings' := putSettings nextSettings w.db.appSettings
  { db := { spaces := spaces'
            nodes := nodes'
            edges := edges'
            spaceViewState := views'
            appSettings := settings' }
    st := { w.st with
            spaces := spaces'
            activeSpaceId := nextActive
            nodes := stNodes
            edges := stEdges
            selectedNodeId := none
            view := view
            appSettings := nextSettings
            hushTarget := hushFor view.mode }
    ctr := w.ctr }

/-- setActiveSpace from src/state/store.ts: loads the given Space into
memory and records it in appSettings as the last-opened Space. -/
def setActiveSpace (spaceId : Nat) (w : World) : World :=
  let nodes := w.db.nodes.filter (fun n => n.spaceId == spaceId)
  let edges := w.db.edges.filter (fun e => e.spaceId == spaceId)
  let view := ((getViewState spaceId w.db.spaceViewState).map (fun r => r.view)).getD
    defaultViewState
  let nextSettings : AppSettings :=
    { key := "app", schemaVersion := currentSchemaVersion, lastOpenedSpaceId := some spaceId }
  let settings' := putSettings nextSettings w.db.appSettings
  { db := { w.db with appSettings := settings' }
    st := { w.st with
            activeSpaceId := some spaceId
            nodes := nodes
            edges := edges
            selectedNodeId := none
            view := view
            appSettings := nextSettings
            hushTarget := hushFor view.mode }
    ctr := w.ctr }

/-- createNode from src/state/store.ts: requires an active Space; the
base position is the parent position (origin when no parent or the
parent is not loaded) plus a pseudorandom jitter per axis, passed here
as the jit argument; the Node always gets a single markdown block with
placeholder text; with a parent, linkNodes is then invoked to add the
child Edge.  nanoid is called once for the Node id and once for the
block id. -/
def createNode (parentId : Option Nat) (title : String) (now : Nat) (jit : Vec3)
    (w : World) : World × Option NodeRecord :=
  match w.st.activeSpaceId with
  | none => (w, none)
  | some sid =>
    let basePosition : Vec3 := match parentId with
      | some p =>
        ((w.st.nodes.find? (fun n => n.id == p)).map (fun n => n.position)).getD ⟨0, 0, 0⟩
      | none => ⟨0, 0, 0⟩
    let node : NodeRecord :=
      { id := w.ctr
        spaceId := sid
        title := if title.trim == "" then "New Thought" else title.trim
        tags := []
        importance := 3
        createdAt := now
        updatedAt := now
        position := ⟨basePosition.x + jit.x, basePosition.y + jit.y, basePosition.z + jit.z⟩
        blocks := [ContentBlock.markdown (w.ctr + 1) "Describe this thought."] }
    let db' := { w.db with nodes := w.db.nodes ++ [node] }
    let stNodes := db'.nodes.filter (fun n => n.spaceId == sid)
    let w1 : World :=
      { db := db', st := { w.st with nodes := stNodes, selectedNodeId := some node.id }
        ctr := w.ctr + 2 }
    match parentId with
    | some p => (linkNodes p node.id (some "child") w1, some node)
    | none => (w1, some node)

/-- JS String.includes: needle occurs as a contiguous substring. -/
def strIncludes (hay needle : String) : Bool :=
  decide (List.IsInfix needle.toList hay.toList)

/-- The filter predicate of search in src/state/store.ts: the lowered
query occurs in the lowered title or in some markdown block text. -/
def nodeMatches (lower : String) (n : NodeRecord) : Bool :=
  strIncludes n.title.toLower lower ||
  n.blocks.any (fun b => isMarkdownBlock b && strIncludes b.text.toLower lower)

/-- The map body of search in src/state/store.ts: snippet is the first
matching markdown block text cut to 120 characters, else the title. -/
def mkSearchResult (lower : String) (n : NodeRecord) : SearchResult :=
  let matchingBlock :=
    n.blocks.find? (fun b => isMarkdownBlock b && strIncludes b.text.toLower lower)
  { id := n.id
    title := n.title
    snippet := (matchingBlock.map (fun b => String.mk (b.text.toList.take 120))).getD n.title }

/-- search from src/state/store.ts: records the query, returns [] for a
blank query or no active Space, otherwise the first 8 matching in-memory
Nodes in table order mapped to results. -/
def search (query : String) (st : MiCaState) : MiCaState × List SearchResult :=
  let st' := { st with searchQuery := query }
  if query.trim == "" || st.activeSpaceId.isNone then (st', [])
  else
    let lower := query.toLower
    (st', ((st.nodes.filter (nodeMatches lower)).take 8).map (mkSearchResult lower))

/-- The JSON envelope produced by exportAll/exportSpace and accepted (as
an arbitrary object) by importData; absent fields are none. -/
structure Envelope where
  schemaVersion : Nat := 0
  exportedAt : Nat := 0
  spaces : Option (List SpaceRecord) := none
  nodes : Option (List NodeRecord) := none
  edges : Option (List EdgeRecord) := none
  views : Option (List SpaceViewStateRecord) := none
  spaceViewState : Option (List SpaceViewStateRecord) := none
  appSettings : Option (List AppSettings) := none
deriving DecidableEq, Repr

/-- exportAll from src/state/store.ts: the whole store in one envelope. -/
def exportAll (now : Nat) (db : DB) : Envelope :=
  { schemaVersion := currentSchemaVersion
    exportedAt := now
    spaces := some db.spaces
    nodes := some db.nodes
    edges := some db.edges
    spaceViewState := some db.spaceViewState
    appSettings := some db.appSettings }

/-- exportSpace from src/state/store.ts: one Space with its Nodes,
Edges and view state; no appSettings field in the envelope. -/
def exportSpace (spaceId : Nat) (now : Nat) (db : DB) : Envelope :=
  { schemaVersion := currentSchemaVersion
    exportedAt := now
    spaces := some (match db.spaces.find? (fun s => s.id == spaceId) with
      | some s => [s]
      | none => [])
    nodes := some (db.nodes.filter (fun n => n.spaceId == spaceId))
    edges := some (db.edges.filter (fun e => e.spaceId == spaceId))
    spaceViewState := some (match getViewState spaceId db.spaceViewState with
      | some v => [v]
      | none => []) }

/-- Lookup in the import remap table; entries are prepended on set so a
later Map.set shadows an earlier one, as in JS. -/
def lookupRemap (m : List (Nat × Nat)) (k : Nat) : Option Nat :=
  (m.find? (fun p => p.1 == k)).map (fun p => p.2)

/-- The node loop of importData: each related Node gets a fresh id
recorded in the remap table and is re-homed to the new Space with fresh
timestamps.  Returns the inserted records, the remap table and the
advanced counter. -/
def importNodes (newSpaceId : Nat) (now : Nat) :
    List NodeRecord → Nat → List (Nat × Nat) →
    (List NodeRecord × List (Nat × Nat) × Nat)
  | [], ctr, m => ([], m, ctr)
  | node :: rest, ctr, m =>
    let newNodeId := ctr
    let m' := (node.id, newNodeId) :: m
    let nextNode : NodeRecord :=
      { node with id := newNodeId, spaceId := newSpaceId, createdAt := now, updatedAt := now }
    let out := importNodes newSpaceId now rest (ctr + 1) m'
    (nextNode :: out.1, out.2.1, out.2.2)

/-- The edge loop of importData: an Edge whose endpoints both remap is
inserted with a fresh id under the new Space; otherwise it is skipped
and no id is consumed. -/
def importEdges (newSpaceId : Nat) (m : List (Nat × Nat)) :
    List EdgeRecord → Nat → (List EdgeRecord × Nat)
  | [], ctr => ([], ctr)
  | edge :: rest, ctr =>
    match lookupRemap m edge.fromId, lookupRemap m edge.toId with
    | some mappedFrom, some mappedTo =>
      let nextEdge : EdgeRecord :=
        { edge with id := ctr, spaceId := newSpaceId, fromId := mappedFrom, toId := mappedTo }
      let out := importEdges newSpaceId m rest (ctr + 1)
      (nextEdge :: out.1, out.2)
    | _, _ => importEdges newSpaceId m rest ctr

/-- Aggregate counts returned by importData. -/
structure ImportCounts where
  addedSpaces : Nat
  addedNodes : Nat
  addedEdges : Nat
deriving DecidableEq, Repr

/-- One iteration of the per-space loop of importData: clone the Space
under a fresh id with the " (imported)" suffix, remap-insert its Nodes
and Edges, and put the incoming (or default) view state keyed to the
new Space id. -/
def importOneSpace (data : Envelope) (now : Nat) (space : SpaceRecord)
    (acc : DB × Nat × ImportCounts) : DB × Nat × ImportCounts :=
  let db := acc.1
  let ctr := acc.2.1
  let counts := acc.2.2
  let newSpaceId := ctr
  let clonedSpace : SpaceRecord :=
    { space with
      id := newSpaceId
      name := space.name ++ " (imported)"
      createdAt := now
      updatedAt := now }
  let db1 := { db with spaces := db.spaces ++ [clonedSpace] }
  let relatedNodes := (data.nodes.getD []).filter (fun n => n.spaceId == space.id)
  let outN := importNodes newSpaceId now relatedNodes (ctr + 1) []
  let db2 := { db1 with nodes := db1.nodes ++ outN.1 }
  let relatedEdges := (data.edges.getD []).filter (fun e => e.spaceId == space.id)
  let outE := importEdges newSpaceId outN.2.1 relatedEdges outN.2.2
  let db3 := { db2 with edges := db2.edges ++ outE.1 }
  let view := ((data.spaceViewState.orElse (fun _ => data.views)).getD []).find?
    (fun v => v.spaceId == space.id)
  let viewRec : SpaceViewStateRecord :=
    { spaceId := newSpaceId, view := (view.map (fun v => v.view)).getD defaultViewState }
  let db4 := { db3 with spaceViewState := putByKey SpaceViewStateRecord.spaceId viewRec db3.spaceViewState }
  (db4, outE.2,
    { addedSpaces := counts.addedSpaces + 1
      addedNodes := counts.addedNodes + relatedNodes.length
      addedEdges := counts.addedEdges + outE.1.length })

/-- importData from src/state/store.ts: returns none (no data imported)
when the payload has no non-empty spaces array; otherwise processes each
incoming Space in one transaction, rewrites appSettings from the
payload-carried settings (lastOpenedSpaceId only), and refreshes the
in-memory spaces and settings. -/
def importData (payload : Envelope) (now : Nat) (w : World) :
    World × Option ImportCounts :=
  let spaces := payload.spaces.getD []
  if spaces.length == 0 then (w, none)
  else
    let out := spaces.foldl (fun acc s => importOneSpace payload now s acc)
      (w.db, w.ctr, ⟨0, 0, 0⟩)
    let db' := out.1
    let ctr' := out.2.1
    let counts := out.2.2
    let incomingSettings := (payload.appSettings.getD []).find? (fun e => e.key == "app")
    let mergedSettings : AppSettings :=
      { key := "app", schemaVersion := currentSchemaVersion
        lastOpenedSpaceId := incomingSettings.bind (fun s => s.lastOpenedSpaceId) }
    let db'' := { db' with appSettings := putSettings mergedSettings db'.appSettings }
    let refreshedSpaces := db''.spaces
    let nextSettings := (getSettings "app" db''.appSettings).getD defaultAppSettings
    ({ db := db''
       st := { w.st with spaces := refreshedSpaces, appSettings := nextSettings }
       ctr := ctr' }, some counts)

/-- The v1 on-disk layout of src/state/database.ts: tables spaces,
nodes, edges and views (view state keyed directly by spaceId). -/
structure V1DB where
  spaces : List SpaceRecord
  nodes : List NodeRecord
  edges : List EdgeRecord
  views : List SpaceViewStateRecord
deriving DecidableEq, Repr

/-- Dexie bulkPut of view records into a table keyed by spaceId. -/
def bulkPutViews (l : List SpaceViewStateRecord) (t : List SpaceViewStateRecord) :
    List SpaceViewStateRecord :=
  l.foldl (fun acc v => putByKey SpaceViewStateRecord.spaceId v acc) t

/-- The version-2 upgrade of src/state/database.ts: the new
spaceViewState table receives every legacy views record via bulkPut
(guarded by a non-emptiness check), and one appSettings record keyed
"app" with schemaVersion 2 and no lastOpenedSpaceId is put into the new
empty appSettings table; spaces, nodes and edges carry over untouched. -/
def migrateV1toV2 (v1 : V1DB) : DB :=
  let legacyViews := v1.views
  let svs := if legacyViews.length > 0 then bulkPutViews legacyViews [] else []
  let settings := putSettings
    { key := "app", schemaVersion := currentSchemaVersion, lastOpenedSpaceId := none } []
  { spaces := v1.spaces, nodes := v1.nodes, edges := v1.edges
    spaceViewState := svs, appSettings := settings }

/-- The initial in-memory state of the store (the literal fields of the
zustand create call in src/state/store.ts). -/
def initialState : MiCaState :=
  { initialized := false
    appMode := "HOME_3D"
    spaces := []
    nodes := []
    edges := []
    activeSpaceId := none
    selectedNodeId := none
    searchQuery := ""
    view := defaultViewState
    appSettings := defaultAppSettings
    hush := 1
    hushTarget := 1 }

/-- A world with empty tables, fresh counter 0. -/
def emptyWorld : World := { db := DB.empty, st := initialState, ctr := 0 }

/-- Example Space Alpha (id 1). -/
def exSpace1 : SpaceRecord :=
  { id := 1, name := "Alpha", icon := "a", createdAt := 0, updatedAt := 0
    view := defaultViewState }

/-- Example Space Beta (id 2). -/
def exSpace2 : SpaceRecord :=
  { id := 2, name := "Beta", icon := "b", createdAt := 0, updatedAt := 0
    view := defaultViewState }

/-- Example Node (id 10) living in Space 1 with one markdown block. -/
def exNode10 : NodeRecord :=
  { id := 10, spaceId := 1, title := "Core", tags := [], importance := 3
    createdAt := 0, updatedAt := 0, position := ⟨0, 0, 0⟩
    blocks := [ContentBlock.markdown 11 "hello world"] }

/-- Example Node (id 12) living in Space 1 with one markdown block. -/
def exNode12 : NodeRecord :=
  { id := 12, spaceId := 1, title := "Satellite", tags := []
    importance := 3, createdAt := 0, updatedAt := 0, position := ⟨1, 0, 0⟩
    blocks := [ContentBlock.markdown 13 "resources and notes"] }

/-- Example store content: two Spaces, two Nodes and one Edge in Space
1, view states for both Spaces, the default settings record. -/
def exDB : DB :=
  { spaces := [exSpace1, exSpace2]
    nodes := [exNode10, exNode12]
    edges := [{ id := 20, spaceId := 1, fromId := 10, toId := 12, relation := some "related" }]
    spaceViewState := [⟨1, defaultViewState⟩, ⟨2, defaultViewState⟩]
    appSettings := [defaultAppSettings] }

/-- Example world: exDB loaded with Space 1 active and the in-memory
lists mirroring the tables of Space 1. -/
def exWorld : World :=
  { db := exDB
    st := { initialState with
            initialized := true
            spaces := exDB.spaces
            nodes := [exNode10, exNode12]
            edges := [{ id := 20, spaceId := 1, fromId := 10, toId := 12, relation := some "related" }]
            activeSpaceId := some 1 }
    ctr := 100 }

/-- Example world with Space 2 active (whose node/edge lists are
empty), used to drive cross-space scenarios. -/
def exWorldBeta : World :=
  { db := exDB
    st := { initialState with
            initialized := true
            spaces := exDB.spaces
            nodes := []
            edges := []
            activeSpaceId := some 2 }
    ctr := 100 }

/-- The related nodes a payload carries for one incoming Space id (the
relatedNodes filter inside importData). -/
def relNodes (data : Envelope) (sid : Nat) : List NodeRecord :=
  (data.nodes.getD []).filter (fun n => n.spaceId == sid)

/-- The related edges a payload carries for one incoming Space id (the
relatedEdges filter inside importData). -/
def relEdges (data : Envelope) (sid : Nat) : List EdgeRecord :=
  (data.edges.getD []).filter (fun e => e.spaceId == sid)

/-- An Edge both of whose endpoints occur among the payload nodes of
its Space: exactly the Edges the import remap keeps. -/
def edgeMappable (data : Envelope) (sid : Nat) (e : EdgeRecord) : Bool :=
  (relNodes data sid).any (fun n => n.id == e.fromId) &&
  (relNodes data sid).any (fun n => n.id == e.toId)

/-- How many Edges the import inserts for one incoming Space. -/
def addedEdgesCount (data : Envelope) (sid : Nat) : Nat :=
  (relEdges data sid).countP (edgeMappable data sid)

/-- The identifier-independent content of a Node: title, tags and
blocks. -/
def nodeContent (n : NodeRecord) : String × List String × List ContentBlock :=
  (n.title, n.tags, n.blocks)

/-- All add-table primary keys of a store are below the id counter. -/
def idsBelow (db : DB) (c : Nat) : Prop :=
  (∀ s ∈ db.spaces, s.id < c) ∧ (∀ n ∈ db.nodes, n.id < c) ∧ (∀ e ∈ db.edges, e.id < c)

/-- The primary keys of the three add-tables are pairwise distinct
(what Dexie guarantees, and what makes add never throw). -/
def keysNodup (db : DB) : Prop :=
  (db.spaces.map SpaceRecord.id).Nodup ∧
  (db.nodes.map NodeRecord.id).Nodup ∧
  (db.edges.map EdgeRecord.id).Nodup

/-- A hand-crafted import payload whose spaces array lists the same
Space record twice and whose edges hold one intact Edge (10 to 12) and
one dangling Edge (10 to 99, no Node 99 in the payload). -/
def exPayloadDup : Envelope :=
  { spaces := some [exSpace1, exSpace1]
    nodes := some [exNode10, exNode12]
    edges := some
      [{ id := 20, spaceId := 1, fromId := 10, toId := 12, relation := some "related" },
       { id := 21, spaceId := 1, fromId := 10, toId := 99, relation := some "related" }] }

/-- An import payload with one Space and one dangling Edge among two. -/
def exPayloadDangle : Envelope :=
  { spaces := some [exSpace1]
    nodes := some [exNode10, exNode12]
    edges := some
      [{ id := 20, spaceId := 1, fromId := 10, toId := 12, relation := some "related" },
       { id := 21, spaceId := 1, fromId := 10, toId := 99, relation := some "related" }] }

/-! Theorems.  General lemmas about the table helpers first, then one
theorem per specification claim (with witnesses and counterexamples). -/

/-- A put into the settings table satisfies a predicate everywhere as
soon as the new record does and every surviving old record does. -/
theorem putSettings_all (p : AppSettings → Bool) (r : AppSettings) (l : List AppSettings)
    (hr : p r = true) (hl : ∀ x ∈ l, x.key ≠ r.key → p x = true) :
    (putSettings r l).all p = true := by
  unfold putSettings
  split
  · rw [List.all_map, List.all_eq_true]
    intro x hx
    by_cases hk : x.key = r.key
    · simp [Function.comp, hk, hr]
    · simp only [Function.comp]
      rw [if_neg (by simpa using hk)]
      exact hl x hx hk
  · rw [List.all_eq_true]
    intro x hx
    rcases List.mem_append.mp hx with h | h
    · by_cases hk : x.key = r.key
      · exfalso
        rename_i hany
        exact hany (List.any_eq_true.mpr ⟨x, h, by simpa using hk⟩)
      · exact hl x h hk
    · simp only [List.mem_singleton] at h
      subst h; exact hr

/-- The head of the spaces list filtered away from S never has id S. -/
theorem head?_filter_map_ne (l : List SpaceRecord) (S : Nat) :
    ((l.filter (fun s => !(s.id == S))).head?.map SpaceRecord.id) ≠ some S := by
  cases h : (l.filter (fun s => !(s.id == S))).head? with
  | none => simp [h]
  | some s =>
    have hs : s ∈ l.filter (fun s => !(s.id == S)) :=
      List.mem_of_mem_head? (by rw [h]; exact Option.mem_some_iff.mpr rfl)
    rw [List.mem_filter] at hs
    have : s.id ≠ S := by simpa using hs.2
    simp [h, this]

/-- linkNodes with equal endpoints is the identity on the world. -/
theorem linkNodes_self (a : Nat) (r : Option String) (w' : World) :
    linkNodes a a r w' = w' := by
  unfold linkNodes
  cases h : w'.st.activeSpaceId with
  | none => rfl
  | some sid => simp

/-- linkNodes is the identity when an edge with the same triple is
already among the in-memory edges of the active Space. -/
theorem linkNodes_noop_dup (w : World) (a b : Nat) (r : Option String) (sid : Nat)
    (hact : w.st.activeSpaceId = some sid)
    (hany : (w.st.edges.any
      (fun e => e.fromId == a && e.toId == b && e.relation == r)) = true) :
    linkNodes a b r w = w := by
  unfold linkNodes
  rw [hact]
  by_cases hab : (a == b) = true <;> simp [hab, hany]

/-- When the guards pass, linkNodes appends exactly one new Edge built
from the active Space id and the fresh id, and reloads the in-memory
edge list. -/
theorem linkNodes_insert (w : World) (a b : Nat) (r : Option String) (sid : Nat)
    (hact : w.st.activeSpaceId = some sid)
    (hab : (a == b) = false)
    (hany : (w.st.edges.any
      (fun e => e.fromId == a && e.toId == b && e.relation == r)) = false) :
    linkNodes a b r w =
      World.mk
        (DB.mk w.db.spaces w.db.nodes (w.db.edges ++ [EdgeRecord.mk w.ctr sid a b r])
          w.db.spaceViewState w.db.appSettings)
        { w.st with edges := (w.db.edges ++ [EdgeRecord.mk w.ctr sid a b r]).filter (fun e => e.spaceId == sid) }
        (w.ctr + 1) := by
  unfold linkNodes
  rw [hact]
  simp [hab, hany]

/-- C1: for every store state and Space id S, deleteSpace S leaves no
Space record with id S, no Node or Edge with spaceId S, no view-state
record keyed S, and the rewritten "app" settings record does not name S
as last-opened Space: no table keeps a record referencing S. -/
theorem C1_deleteSpace_removes_every_reference (w : World) (S : Nat) :
    (deleteSpace S w).db.spaces.all (fun s => !(s.id == S)) = true ∧
    (deleteSpace S w).db.nodes.all (fun n => !(n.spaceId == S)) = true ∧
    (deleteSpace S w).db.edges.all (fun e => !(e.spaceId == S)) = true ∧
    (deleteSpace S w).db.spaceViewState.all (fun v => !(v.spaceId == S)) = true ∧
    (deleteSpace S w).db.appSettings.all
      (fun a => !(a.key == "app") || !(a.lastOpenedSpaceId == some S)) = true := by
  refine ⟨?_, ?_, ?_, ?_, ?_⟩
  · simp [deleteSpace, List.all_eq_true, List.mem_filter]
  · simp [deleteSpace, List.all_eq_true, List.mem_filter]
  · simp [deleteSpace, List.all_eq_true, List.mem_filter]
  · simp [deleteSpace, List.all_eq_true, List.mem_filter]
  · show (putSettings _ _).all _ = true
    apply putSettings_all
    · have := head?_filter_map_ne w.db.spaces S
      simpa using this
    · intro x _ hk
      simp [show (x.key == "app") = false from by simpa using hk]

/-- C2: with a Space active, the in-memory edges mirroring the table
and at most one stored Edge with the triple, calling linkNodes a b r
twice with identical arguments (a different from b) leaves exactly one
Edge with that (from, to, relation) triple in the active Space, and
linkNodes a a r is always a silent no-op that never creates an Edge. -/
theorem C2_linkNodes_idempotent_and_rejects_self_loops
    (w : World) (a b : Nat) (r : Option String) (sid : Nat)
    (hact : w.st.activeSpaceId = some sid)
    (hmirror : w.st.edges = w.db.edges.filter (fun e => e.spaceId == sid))
    (hcount : w.db.edges.countP
        (fun e => e.spaceId == sid && e.fromId == a && e.toId == b && e.relation == r) ≤ 1)
    (hne : a ≠ b) :
    (linkNodes a b r (linkNodes a b r w)).db.edges.countP
        (fun e => e.spaceId == sid && e.fromId == a && e.toId == b && e.relation == r) = 1 ∧
    (∀ c : Nat, ∀ r' : Option String, ∀ w' : World, linkNodes c c r' w' = w') := by
  refine ⟨?_, fun c r' w' => linkNodes_self c r' w'⟩
  have hab : (a == b) = false := beq_eq_false_iff_ne.mpr hne
  by_cases hany : (w.st.edges.any
      (fun e => e.fromId == a && e.toId == b && e.relation == r)) = true
  · rw [linkNodes_noop_dup w a b r sid hact hany, linkNodes_noop_dup w a b r sid hact hany]
    rcases List.any_eq_true.mp hany with ⟨e, he, hpe⟩
    rw [hmirror, List.mem_filter] at he
    have hpos : 0 < w.db.edges.countP
        (fun e => e.spaceId == sid && e.fromId == a && e.toId == b && e.relation == r) := by
      rw [List.countP_pos_iff]
      refine ⟨e, he.1, ?_⟩
      simp only [Bool.and_eq_true] at hpe ⊢
      exact ⟨⟨⟨he.2, hpe.1.1⟩, hpe.1.2⟩, hpe.2⟩
    omega
  · have hany' : (w.st.edges.any
        (fun e => e.fromId == a && e.toId == b && e.relation == r)) = false := by
      simpa using hany
    rw [linkNodes_insert w a b r sid hact hab hany']
    have hany2 : ((({ w.st with edges := (w.db.edges ++ [EdgeRecord.mk w.ctr sid a b r]).filter (fun e => e.spaceId == sid) } : MiCaState)).edges.any
        (fun e => e.fromId == a && e.toId == b && e.relation == r)) = true := by
      refine List.any_eq_true.mpr ⟨EdgeRecord.mk w.ctr sid a b r, ?_, by simp⟩
      exact List.mem_filter.mpr ⟨List.mem_append_right _ (List.mem_singleton.mpr rfl), by simp⟩
    rw [linkNodes_noop_dup _ a b r sid (by simp [hact]) hany2]
    show ((w.db.edges ++ [EdgeRecord.mk w.ctr sid a b r]).countP
      (fun e => e.spaceId == sid && e.fromId == a && e.toId == b && e.relation == r)) = 1
    rw [List.countP_append]
    have hzero : w.db.edges.countP
        (fun e => e.spaceId == sid && e.fromId == a && e.toId == b && e.relation == r) = 0 := by
      rw [List.countP_eq_zero]
      intro e he hpe
      simp only [Bool.and_eq_true] at hpe
      have hmem : e ∈ w.st.edges := by
        rw [hmirror, List.mem_filter]
        exact ⟨he, hpe.1.1.1⟩
      have : (w.st.edges.any
          (fun e => e.fromId == a && e.toId == b && e.relation == r)) = true :=
        List.any_eq_true.mpr ⟨e, hmem, by
          simp only [Bool.and_eq_true]
          exact ⟨⟨hpe.1.1.2, hpe.1.2⟩, hpe.2⟩⟩
      rw [hany'] at this
      exact Bool.false_ne_true this
    rw [hzero]
    simp

/-- Witness for C2 at a concrete world: linking Node 10 to Node 12 with
relation child twice yields exactly one such Edge, and a self-link on
id 7 changes nothing. -/
theorem C2_witness :
    (linkNodes 10 12 (some "child") (linkNodes 10 12 (some "child") exWorld)).db.edges.countP
        (fun e => e.spaceId == 1 && e.fromId == 10 && e.toId == 12 && e.relation == some "child") = 1 ∧
    linkNodes 7 7 (some "x") exWorld = exWorld := by
  have h := C2_linkNodes_idempotent_and_rejects_self_loops exWorld 10 12 (some "child") 1
    (by decide) (by decide) (by decide) (by decide)
  exact ⟨h.1, h.2 7 (some "x") exWorld⟩

/-- C3 counterexample: starting from the example store with Space 2
active, linkNodes 10 11 creates an Edge in Space 2 whose from endpoint
is Node 10 of Space 1 (endpoints are not validated).  After switching
to Space 1 and deleting Node 10, the Node is gone but that Edge
incident to 10 is still stored, because deleteNode only deletes
incident Edges of the active Space: the claim that no Edge incident to
N remains after deleteNode(N) fails. -/
theorem C3_counterexample :
    ((deleteNode 10 (setActiveSpace 1 (linkNodes 10 11 (some "related") exWorldBeta))).db.nodes.all
      (fun n => !(n.id == 10))) = true ∧
    ((deleteNode 10 (setActiveSpace 1 (linkNodes 10 11 (some "related") exWorldBeta))).db.edges.countP
      (fun e => e.fromId == 10 || e.toId == 10)) = 1 := by decide

/-- C3 amended: with a Space active, deleteNode N removes the Node
record with id N and every Edge of the active Space whose from or to
field equals N, for every relation label; Edges stored under other
Spaces are kept verbatim, even when incident to N. -/
theorem C3_deleteNode_removes_node_and_active_space_incident_edges
    (w : World) (N sid : Nat)
    (hact : w.st.activeSpaceId = some sid) :
    ((deleteNode N w).db.nodes.all (fun n => !(n.id == N))) = true ∧
    ((deleteNode N w).db.edges.all
      (fun e => !(e.spaceId == sid) || (!(e.fromId == N) && !(e.toId == N)))) = true ∧
    (deleteNode N w).db.edges.filter (fun e => !(e.spaceId == sid)) =
      w.db.edges.filter (fun e => !(e.spaceId == sid)) := by
  unfold deleteNode
  rw [hact]
  refine ⟨?_, ?_, ?_⟩
  · simp [List.all_eq_true, List.mem_filter]
  · rw [List.all_eq_true]
    intro e he
    rw [List.mem_filter] at he
    by_cases h1 : (e.spaceId == sid) = true <;> simp_all
  · rw [List.filter_filter]
    apply List.filter_congr
    intro e _
    by_cases h1 : (e.spaceId == sid) = true <;> simp [h1]

/-- Witness for the amended C3 at the concrete world of the
counterexample: deleting Node 10 with Space 1 active removes the Node,
clears the incident Edges of Space 1 and keeps the Space 2 Edges. -/
theorem C3_witness :
    ((deleteNode 10 (setActiveSpace 1 (linkNodes 10 11 (some "related") exWorldBeta))).db.nodes.all
      (fun n => !(n.id == 10))) = true ∧
    ((deleteNode 10 (setActiveSpace 1 (linkNodes 10 11 (some "related") exWorldBeta))).db.edges.all
      (fun e => !(e.spaceId == 1) || (!(e.fromId == 10) && !(e.toId == 10)))) = true ∧
    (deleteNode 10 (setActiveSpace 1 (linkNodes 10 11 (some "related") exWorldBeta))).db.edges.filter
        (fun e => !(e.spaceId == 1)) =
      (setActiveSpace 1 (linkNodes 10 11 (some "related") exWorldBeta)).db.edges.filter
        (fun e => !(e.spaceId == 1)) :=
  C3_deleteNode_removes_node_and_active_space_incident_edges
    (setActiveSpace 1 (linkNodes 10 11 (some "related") exWorldBeta)) 10 1 (by decide)

/-- C10: linkNodes never checks that its endpoints name existing Nodes.
With a Space active, distinct endpoints and no duplicate triple in
memory, it appends the Edge to the table even under the explicit
assumption that no Node record in the store carries id a or id b. -/
theorem C10_linkNodes_accepts_dangling_endpoints
    (w : World) (a b : Nat) (r : Option String) (sid : Nat)
    (hact : w.st.activeSpaceId = some sid)
    (hne : a ≠ b)
    (hnodup : (w.st.edges.any
      (fun e => e.fromId == a && e.toId == b && e.relation == r)) = false)
    (hdangling : (w.db.nodes.all (fun n => !(n.id == a) && !(n.id == b))) = true) :
    (linkNodes a b r w).db.edges = w.db.edges ++ [EdgeRecord.mk w.ctr sid a b r] := by
  rw [linkNodes_insert w a b r sid hact (beq_eq_false_iff_ne.mpr hne) hnodup]

/-- Witness for C10: in the example world no Node has id 50 or 51, yet
linking 50 to 51 stores the dangling Edge. -/
theorem C10_witness :
    (linkNodes 50 51 (some "related") exWorld).db.edges =
      exWorld.db.edges ++ [EdgeRecord.mk 100 1 50 51 (some "related")] :=
  C10_linkNodes_accepts_dangling_endpoints exWorld 50 51 (some "related") 1
    (by decide) (by decide) (by decide) (by decide)

/-- A put keyed by spaceId whose key is absent just appends. -/
theorem putByKey_not_mem (r : SpaceViewStateRecord) (t : List SpaceViewStateRecord)
    (h : ∀ x ∈ t, x.spaceId ≠ r.spaceId) :
    putByKey SpaceViewStateRecord.spaceId r t = t ++ [r] := by
  unfold putByKey
  rw [if_neg]
  intro hany
  rcases List.any_eq_true.mp hany with ⟨x, hx, hpx⟩
  exact h x hx (by simpa using hpx)

/-- bulkPut of records with pairwise-distinct keys, none present in the
target table, appends them in order. -/
theorem bulkPutViews_disjoint (l : List SpaceViewStateRecord) :
    ∀ t : List SpaceViewStateRecord,
    (l.map SpaceViewStateRecord.spaceId).Nodup →
    (∀ v ∈ l, ∀ u ∈ t, v.spaceId ≠ u.spaceId) →
    bulkPutViews l t = t ++ l := by
  induction l with
  | nil => intro t _ _; simp [bulkPutViews]
  | cons v rest ih =>
    intro t hnd hdisj
    rw [List.map_cons, List.nodup_cons] at hnd
    show bulkPutViews rest (putByKey SpaceViewStateRecord.spaceId v t) = t ++ (v :: rest)
    rw [putByKey_not_mem v t (fun x hx => Ne.symm (hdisj v (List.mem_cons_self v rest) x hx))]
    rw [ih (t ++ [v]) hnd.2 ?_]
    · simp
    · intro u hu x hx
      rcases List.mem_append.mp hx with h | h
      · exact hdisj u (List.mem_cons_of_mem v hu) x h
      · rw [List.mem_singleton] at h
        subst h
        intro hcontra
        exact hnd.1 (by rw [← hcontra]; exact List.mem_map_of_mem SpaceViewStateRecord.spaceId hu)

/-- C6: on a v1-shaped store whose views table has pairwise-distinct
keys (its primary-key invariant), the v1-to-v2 migration copies every
former views record into spaceViewState unchanged and in order, leaves
exactly one appSettings record, keyed "app" with schemaVersion 2 and
lastOpenedSpaceId unset, and carries spaces, nodes and edges over
untouched. -/
theorem C6_migration_v1_to_v2 (v1 : V1DB)
    (hnd : (v1.views.map SpaceViewStateRecord.spaceId).Nodup) :
    (migrateV1toV2 v1).spaceViewState = v1.views ∧
    (migrateV1toV2 v1).appSettings = [AppSettings.mk "app" 2 none] ∧
    (migrateV1toV2 v1).spaces = v1.spaces ∧
    (migrateV1toV2 v1).nodes = v1.nodes ∧
    (migrateV1toV2 v1).edges = v1.edges := by
  refine ⟨?_, rfl, rfl, rfl, rfl⟩
  show (if v1.views.length > 0 then bulkPutViews v1.views [] else []) = v1.views
  by_cases h : v1.views.length > 0
  · rw [if_pos h, bulkPutViews_disjoint v1.views [] hnd (by simp)]
    simp
  · rw [if_neg h]
    have : v1.views = [] := List.length_eq_zero.mp (by omega)
    rw [this]

/-- Witness for C6 on the concrete example tables. -/
theorem C6_witness :
    (migrateV1toV2 (V1DB.mk exDB.spaces exDB.nodes exDB.edges exDB.spaceViewState)).spaceViewState = exDB.spaceViewState ∧
    (migrateV1toV2 (V1DB.mk exDB.spaces exDB.nodes exDB.edges exDB.spaceViewState)).appSettings = [AppSettings.mk "app" 2 none] ∧
    (migrateV1toV2 (V1DB.mk exDB.spaces exDB.nodes exDB.edges exDB.spaceViewState)).spaces = exDB.spaces ∧
    (migrateV1toV2 (V1DB.mk exDB.spaces exDB.nodes exDB.edges exDB.spaceViewState)).nodes = exDB.nodes ∧
    (migrateV1toV2 (V1DB.mk exDB.spaces exDB.nodes exDB.edges exDB.spaceViewState)).edges = exDB.edges :=
  C6_migration_v1_to_v2 (V1DB.mk exDB.spaces exDB.nodes exDB.edges exDB.spaceViewState)
    (by decide)

/-- C8: search returns at most 8 results; their ids form a sublist of
the in-memory node ids (natural table order); every result carries the
id and title of a matching Node and, as snippet, the text of the first
case-insensitively matching markdown block cut to 120 characters, or
the title when no markdown block matched; a blank query or the absence
of an active Space yields the empty list. -/
theorem C8_search_contract (q : String) (st : MiCaState) :
    (search q st).2.length ≤ 8 ∧
    List.Sublist ((search q st).2.map (fun res => res.id)) (st.nodes.map (fun n => n.id)) ∧
    (∀ res ∈ (search q st).2, ∃ n ∈ st.nodes,
      res.id = n.id ∧ res.title = n.title ∧
      ((∃ blk ∈ n.blocks, isMarkdownBlock blk = true ∧
          strIncludes blk.text.toLower q.toLower = true ∧
          n.blocks.find? (fun b => isMarkdownBlock b && strIncludes b.text.toLower q.toLower) = some blk ∧
          res.snippet = String.mk (blk.text.toList.take 120)) ∨
        (n.blocks.find? (fun b => isMarkdownBlock b && strIncludes b.text.toLower q.toLower) = none ∧
          res.snippet = n.title))) ∧
    (q.trim = "" → (search q st).2 = []) ∧
    (st.activeSpaceId = none → (search q st).2 = []) := by
  by_cases hc : (q.trim == "" || st.activeSpaceId.isNone) = true
  · have hres : (search q st).2 = [] := by
      unfold search
      rw [if_pos hc]
    rw [hres]
    simp
  · have hres : (search q st).2 =
        ((st.nodes.filter (nodeMatches q.toLower)).take 8).map (mkSearchResult q.toLower) := by
      unfold search
      rw [if_neg hc]
    rw [hres]
    refine ⟨?_, ?_, ?_, ?_, ?_⟩
    · rw [List.length_map]
      exact le_trans (List.length_take_le 8 _) (le_refl 8)
    · have hid : (((st.nodes.filter (nodeMatches q.toLower)).take 8).map (mkSearchResult q.toLower)).map (fun res => res.id)
          = ((st.nodes.filter (nodeMatches q.toLower)).take 8).map (fun n => n.id) := by
        rw [List.map_map]
        rfl
      rw [hid]
      exact List.Sublist.map _ (List.Sublist.trans (List.take_sublist 8 _) (List.filter_sublist _))
    · intro res hres2
      rcases List.mem_map.mp hres2 with ⟨n, hn, hmk⟩
      have hmem : n ∈ st.nodes :=
        List.mem_of_mem_filter (List.mem_of_mem_take hn)
      refine ⟨n, hmem, ?_, ?_, ?_⟩
      · rw [← hmk]; rfl
      · rw [← hmk]; rfl
      · cases hfind : n.blocks.find? (fun b => isMarkdownBlock b && strIncludes b.text.toLower q.toLower) with
        | some blk =>
          left
          refine ⟨blk, List.mem_of_find?_eq_some hfind, ?_, ?_, rfl, ?_⟩
          · have := List.find?_some hfind
            exact (Bool.and_eq_true _ _).mp this |>.1
          · have := List.find?_some hfind
            exact (Bool.and_eq_true _ _).mp this |>.2
          · rw [← hmk]
            unfold mkSearchResult
            rw [hfind]
            rfl
        | none =>
          right
          refine ⟨rfl, ?_⟩
          rw [← hmk]
          unfold mkSearchResult
          rw [hfind]
          rfl
    · intro hq
      exfalso
      apply hc
      rw [Bool.or_eq_true]
      left
      exact beq_iff_eq.mpr hq
    · intro hact
      exfalso
      apply hc
      rw [Bool.or_eq_true]
      right
      rw [hact]
      rfl

/-- Witness for C8: with no active Space the query yields no results,
and on the example state a real query yields at most 8. -/
theorem C8_witness :
    (search "hello" initialState).2 = [] ∧ (search "hello" exWorld.st).2.length ≤ 8 :=
  ⟨(C8_search_contract "hello" initialState).2.2.2.2 rfl,
   (C8_search_contract "hello" exWorld.st).1⟩

/-- C7: with a Space active, an existing parent Node P (of fresh-bounded
id) and a store whose edge endpoints are below the id counter, createNode
with parentId P returns a Node whose blocks are exactly one markdown
block with the placeholder text, and afterwards exactly one Edge from P
to the new Node with relation child exists in the store, where none
existed before. -/
theorem C7_createNode_with_parent (w : World) (P sid : Nat) (title : String)
    (now : Nat) (jit : Vec3)
    (hact : w.st.activeSpaceId = some sid)
    (hP : ∃ p ∈ w.st.nodes, p.id = P)
    (hPlt : P < w.ctr)
    (hmirror : w.st.edges = w.db.edges.filter (fun e => e.spaceId == sid))
    (hfresh : ∀ e ∈ w.db.edges, e.toId < w.ctr) :
    ((createNode (some P) title now jit w).2.map (fun n => n.blocks)) =
      some [ContentBlock.markdown (w.ctr + 1) "Describe this thought."] ∧
    ((createNode (some P) title now jit w).2.map (fun n => n.id)) = some w.ctr ∧
    (createNode (some P) title now jit w).1.db.edges.countP
      (fun e => e.fromId == P && e.toId == w.ctr && e.relation == some "child") = 1 ∧
    w.db.edges.countP
      (fun e => e.fromId == P && e.toId == w.ctr && e.relation == some "child") = 0 := by
  have hzero : w.db.edges.countP
      (fun e => e.fromId == P && e.toId == w.ctr && e.relation == some "child") = 0 := by
    rw [List.countP_eq_zero]
    intro e he hpe
    simp only [Bool.and_eq_true, beq_iff_eq] at hpe
    exact absurd hpe.1.2 (Nat.ne_of_lt (hfresh e he))
  have hanyF : (w.st.edges.any
      (fun e => e.fromId == P && e.toId == w.ctr && e.relation == some "child")) = false := by
    rw [Bool.eq_false_iff]
    intro hany
    rcases List.any_eq_true.mp hany with ⟨e, he, hpe⟩
    rw [hmirror, List.mem_filter] at he
    simp only [Bool.and_eq_true, beq_iff_eq] at hpe
    exact absurd hpe.1.2 (Nat.ne_of_lt (hfresh e he.1))
  refine ⟨?_, ?_, ?_, hzero⟩
  · unfold createNode
    rw [hact]
    rfl
  · unfold createNode
    rw [hact]
    rfl
  · simp only [createNode, hact]
    rw [linkNodes_insert _ P w.ctr (some "child") sid]
    · show ((w.db.edges ++ [EdgeRecord.mk (w.ctr + 2) sid P w.ctr (some "child")]).countP
        (fun e => e.fromId == P && e.toId == w.ctr && e.relation == some "child")) = 1
      rw [List.countP_append, hzero]
      simp
    · rfl
    · exact beq_eq_false_iff_ne.mpr (Nat.ne_of_lt hPlt)
    · exact hanyF

/-- Witness for C7: creating a child of Node 10 in the example world
yields the placeholder markdown block and exactly one child Edge. -/
theorem C7_witness :
    ((createNode (some 10) "X" 5 (Vec3.mk 0 0 0) exWorld).2.map (fun n => n.blocks)) =
      some [ContentBlock.markdown 101 "Describe this thought."] ∧
    ((createNode (some 10) "X" 5 (Vec3.mk 0 0 0) exWorld).2.map (fun n => n.id)) = some 100 ∧
    (createNode (some 10) "X" 5 (Vec3.mk 0 0 0) exWorld).1.db.edges.countP
      (fun e => e.fromId == 10 && e.toId == 100 && e.relation == some "child") = 1 ∧
    exWorld.db.edges.countP
      (fun e => e.fromId == 10 && e.toId == 100 && e.relation == some "child") = 0 :=
  C7_createNode_with_parent exWorld 10 1 "X" 5 (Vec3.mk 0 0 0)
    (by decide) (by decide) (by decide) (by decide) (by decide)

theorem importNodes_length (sid : Nat) (now : Nat) (l : List NodeRecord) :
    ∀ ctr m, (importNodes sid now l ctr m).1.length = l.length := by
  induction l with
  | nil => intro ctr m; rfl
  | cons node rest ih =>
    intro ctr m
    unfold importNodes
    simp only [List.length_cons]
    rw [← ih (ctr + 1) ((node.id, ctr) :: m)]

theorem importNodes_ctr (sid : Nat) (now : Nat) (l : List NodeRecord) :
    ∀ ctr m, (importNodes sid now l ctr m).2.2 = ctr + l.length := by
  induction l with
  | nil => intro ctr m; rfl
  | cons node rest ih =>
    intro ctr m
    unfold importNodes
    simp only [List.length_cons]
    show (importNodes sid now rest (ctr + 1) ((node.id, ctr) :: m)).2.2 = ctr + (rest.length + 1)
    rw [ih (ctr + 1) ((node.id, ctr) :: m)]
    omega

theorem importNodes_ids (sid : Nat) (now : Nat) (l : List NodeRecord) :
    ∀ ctr m, (importNodes sid now l ctr m).1.map (fun n => n.id) = List.range' ctr l.length := by
  induction l with
  | nil => intro ctr m; rfl
  | cons node rest ih =>
    intro ctr m
    unfold importNodes
    show (ctr :: (importNodes sid now rest (ctr + 1) ((node.id, ctr) :: m)).1.map (fun n => n.id)) = List.range' ctr (rest.length + 1)
    rw [ih (ctr + 1) ((node.id, ctr) :: m)]
    rw [List.range'_succ]

theorem importNodes_content (sid : Nat) (now : Nat) (l : List NodeRecord) :
    ∀ ctr m, (importNodes sid now l ctr m).1.map nodeContent = l.map nodeContent := by
  induction l with
  | nil => intro ctr m; rfl
  | cons node rest ih =>
    intro ctr m
    unfold importNodes
    show nodeContent _ :: (importNodes sid now rest (ctr + 1) ((node.id, ctr) :: m)).1.map nodeContent
      = nodeContent node :: rest.map nodeContent
    rw [ih (ctr + 1) ((node.id, ctr) :: m)]
    rfl

theorem importNodes_lookup (sid : Nat) (now : Nat) (l : List NodeRecord) :
    ∀ ctr m k, (lookupRemap (importNodes sid now l ctr m).2.1 k).isSome =
      (l.any (fun n => n.id == k) || (lookupRemap m k).isSome) := by
  induction l with
  | nil => intro ctr m k; rfl
  | cons node rest ih =>
    intro ctr m k
    unfold importNodes
    show (lookupRemap (importNodes sid now rest (ctr + 1) ((node.id, ctr) :: m)).2.1 k).isSome = _
    rw [ih (ctr + 1) ((node.id, ctr) :: m) k]
    have hm : (lookupRemap ((node.id, ctr) :: m) k).isSome = ((node.id == k) || (lookupRemap m k).isSome) := by
      unfold lookupRemap
      by_cases h : (node.id == k) = true
      · simp [List.find?_cons, h]
      · simp only [Bool.not_eq_true] at h
        simp [List.find?_cons, h]
    rw [hm, List.any_cons]
    cases node.id == k <;> cases rest.any (fun n => n.id == k) <;> cases (lookupRemap m k).isSome <;> rfl


theorem importEdges_length (sid : Nat) (m : List (Nat × Nat)) (l : List EdgeRecord) :
    ∀ ctr, (importEdges sid m l ctr).1.length =
      l.countP (fun e => (lookupRemap m e.fromId).isSome && (lookupRemap m e.toId).isSome) := by
  induction l with
  | nil => intro ctr; rfl
  | cons edge rest ih =>
    intro ctr
    rw [List.countP_cons]
    unfold importEdges
    cases hf : lookupRemap m edge.fromId with
    | none =>
      simp only [hf]
      rw [ih ctr]
      simp [Option.isSome]
    | some mf =>
      cases ht : lookupRemap m edge.toId with
      | none =>
        simp only [hf, ht]
        rw [ih ctr]
        simp [Option.isSome]
      | some mt =>
        simp only [hf, ht]
        show ((importEdges sid m rest (ctr + 1)).1.length + 1) = _
        rw [ih (ctr + 1)]
        simp [Option.isSome]

theorem importEdges_ctr (sid : Nat) (m : List (Nat × Nat)) (l : List EdgeRecord) :
    ∀ ctr, (importEdges sid m l ctr).2 = ctr + (importEdges sid m l ctr).1.length := by
  induction l with
  | nil => intro ctr; rfl
  | cons edge rest ih =>
    intro ctr
    unfold importEdges
    cases hf : lookupRemap m edge.fromId with
    | none =>
      simp only [hf]
      exact ih ctr
    | some mf =>
      cases ht : lookupRemap m edge.toId with
      | none =>
        simp only [hf, ht]
        exact ih ctr
      | some mt =>
        simp only [hf, ht]
        show (importEdges sid m rest (ctr + 1)).2 = ctr + ((importEdges sid m rest (ctr + 1)).1.length + 1)
        rw [ih (ctr + 1)]
        omega

theorem importEdges_ids (sid : Nat) (m : List (Nat × Nat)) (l : List EdgeRecord) :
    ∀ ctr, (importEdges sid m l ctr).1.map (fun e => e.id) =
      List.range' ctr (importEdges sid m l ctr).1.length := by
  induction l with
  | nil => intro ctr; rfl
  | cons edge rest ih =>
    intro ctr
    unfold importEdges
    cases hf : lookupRemap m edge.fromId with
    | none =>
      simp only [hf]
      exact ih ctr
    | some mf =>
      cases ht : lookupRemap m edge.toId with
      | none =>
        simp only [hf, ht]
        exact ih ctr
      | some mt =>
        simp only [hf, ht]
        show (ctr :: (importEdges sid m rest (ctr + 1)).1.map (fun e => e.id)) =
          List.range' ctr ((importEdges sid m rest (ctr + 1)).1.length + 1)
        rw [ih (ctr + 1), List.range'_succ]


theorem importOneSpace_components (data : Envelope) (now : Nat) (space : SpaceRecord)
    (db : DB) (c : Nat) (counts : ImportCounts) :
    (importOneSpace data now space (db, c, counts)).1.spaces =
      db.spaces ++ [{ space with
        id := c
        name := space.name ++ " (imported)"
        createdAt := now
        updatedAt := now }] ∧
    (importOneSpace data now space (db, c, counts)).1.nodes =
      db.nodes ++ (importNodes c now (relNodes data space.id) (c + 1) []).1 ∧
    (importOneSpace data now space (db, c, counts)).1.edges =
      db.edges ++ (importEdges c (importNodes c now (relNodes data space.id) (c + 1) []).2.1
        (relEdges data space.id) (importNodes c now (relNodes data space.id) (c + 1) []).2.2).1 ∧
    (importOneSpace data now space (db, c, counts)).1.appSettings = db.appSettings ∧
    (importOneSpace data now space (db, c, counts)).2.1 =
      (importEdges c (importNodes c now (relNodes data space.id) (c + 1) []).2.1
        (relEdges data space.id) (importNodes c now (relNodes data space.id) (c + 1) []).2.2).2 ∧
    (importOneSpace data now space (db, c, counts)).2.2.addedSpaces = counts.addedSpaces + 1 ∧
    (importOneSpace data now space (db, c, counts)).2.2.addedNodes =
      counts.addedNodes + (relNodes data space.id).length ∧
    (importOneSpace data now space (db, c, counts)).2.2.addedEdges =
      counts.addedEdges + (importEdges c (importNodes c now (relNodes data space.id) (c + 1) []).2.1
        (relEdges data space.id) (importNodes c now (relNodes data space.id) (c + 1) []).2.2).1.length :=
  ⟨rfl, rfl, rfl, rfl, rfl, rfl, rfl, rfl⟩


theorem importOneSpace_edges_count (data : Envelope) (now : Nat) (sid : Nat) (c : Nat) :
    (importEdges c (importNodes c now (relNodes data sid) (c + 1) []).2.1
      (relEdges data sid) (importNodes c now (relNodes data sid) (c + 1) []).2.2).1.length =
    addedEdgesCount data sid := by
  rw [importEdges_length]
  unfold addedEdgesCount
  apply List.countP_congr
  intro e _
  unfold edgeMappable
  rw [importNodes_lookup, importNodes_lookup]
  simp [lookupRemap]


theorem importFold_counts (data : Envelope) (now : Nat) (spaces : List SpaceRecord) :
    ∀ acc : DB × Nat × ImportCounts,
      (spaces.foldl (fun a s => importOneSpace data now s a) acc).2.2 =
      ImportCounts.mk (acc.2.2.addedSpaces + spaces.length)
        (acc.2.2.addedNodes + (spaces.map (fun s => (relNodes data s.id).length)).sum)
        (acc.2.2.addedEdges + (spaces.map (fun s => addedEdgesCount data s.id)).sum) := by
  induction spaces with
  | nil => intro acc; simp
  | cons s rest ih =>
    intro acc
    rw [List.foldl_cons, ih (importOneSpace data now s acc)]
    have h1 : (importOneSpace data now s acc).2.2.addedSpaces = acc.2.2.addedSpaces + 1 := rfl
    have h2 : (importOneSpace data now s acc).2.2.addedNodes =
        acc.2.2.addedNodes + (relNodes data s.id).length := rfl
    have h3 : (importOneSpace data now s acc).2.2.addedEdges =
        acc.2.2.addedEdges + (importEdges acc.2.1
          (importNodes acc.2.1 now (relNodes data s.id) (acc.2.1 + 1) []).2.1
          (relEdges data s.id)
          (importNodes acc.2.1 now (relNodes data s.id) (acc.2.1 + 1) []).2.2).1.length := rfl
    rw [h1, h2, h3, importOneSpace_edges_count data now s.id acc.2.1]
    simp only [ImportCounts.mk.injEq, List.length_cons, List.map_cons, List.sum_cons]
    omega

theorem importFold_spaces_len (data : Envelope) (now : Nat) (spaces : List SpaceRecord) :
    ∀ acc : DB × Nat × ImportCounts,
      (spaces.foldl (fun a s => importOneSpace data now s a) acc).1.spaces.length =
      acc.1.spaces.length + spaces.length := by
  induction spaces with
  | nil => intro acc; simp
  | cons s rest ih =>
    intro acc
    rw [List.foldl_cons, ih (importOneSpace data now s acc)]
    have h1 : (importOneSpace data now s acc).1.spaces.length = acc.1.spaces.length + 1 := by
      show (acc.1.spaces ++ [_]).length = _
      simp
    rw [h1]
    simp only [List.length_cons]
    omega

theorem importFold_nodes_content (data : Envelope) (now : Nat) (spaces : List SpaceRecord) :
    ∀ acc : DB × Nat × ImportCounts,
      (spaces.foldl (fun a s => importOneSpace data now s a) acc).1.nodes.map nodeContent =
      acc.1.nodes.map nodeContent ++
        (spaces.map (fun s => (relNodes data s.id).map nodeContent)).flatten := by
  induction spaces with
  | nil => intro acc; simp
  | cons s rest ih =>
    intro acc
    rw [List.foldl_cons, ih (importOneSpace data now s acc)]
    have h1 : (importOneSpace data now s acc).1.nodes.map nodeContent =
        acc.1.nodes.map nodeContent ++ (relNodes data s.id).map nodeContent := by
      show (acc.1.nodes ++ (importNodes acc.2.1 now (relNodes data s.id) (acc.2.1 + 1) []).1).map nodeContent = _
      rw [List.map_append, importNodes_content]
    rw [h1]
    simp only [List.map_cons, List.flatten_cons, List.append_assoc]

theorem importFold_edges_len (data : Envelope) (now : Nat) (spaces : List SpaceRecord) :
    ∀ acc : DB × Nat × ImportCounts,
      (spaces.foldl (fun a s => importOneSpace data now s a) acc).1.edges.length =
      acc.1.edges.length + (spaces.map (fun s => addedEdgesCount data s.id)).sum := by
  induction spaces with
  | nil => intro acc; simp
  | cons s rest ih =>
    intro acc
    rw [List.foldl_cons, ih (importOneSpace data now s acc)]
    have h1 : (importOneSpace data now s acc).1.edges.length =
        acc.1.edges.length + addedEdgesCount data s.id := by
      show (acc.1.edges ++ (importEdges acc.2.1
          (importNodes acc.2.1 now (relNodes data s.id) (acc.2.1 + 1) []).2.1
          (relEdges data s.id)
          (importNodes acc.2.1 now (relNodes data s.id) (acc.2.1 + 1) []).2.2).1).length = _
      rw [List.length_append, importOneSpace_edges_count data now s.id acc.2.1]
    rw [h1]
    simp only [List.map_cons, List.sum_cons]
    omega

theorem importFold_appSettings (data : Envelope) (now : Nat) (spaces : List SpaceRecord) :
    ∀ acc : DB × Nat × ImportCounts,
      (spaces.foldl (fun a s => importOneSpace data now s a) acc).1.appSettings =
      acc.1.appSettings := by
  induction spaces with
  | nil => intro acc; rfl
  | cons s rest ih =>
    intro acc
    rw [List.foldl_cons, ih (importOneSpace data now s acc)]
    rfl


theorem importOneSpace_inv (data : Envelope) (now : Nat) (space : SpaceRecord)
    (db : DB) (c : Nat) (counts : ImportCounts)
    (hb : idsBelow db c) (hn : keysNodup db) :
    idsBelow (importOneSpace data now space (db, c, counts)).1
        (importOneSpace data now space (db, c, counts)).2.1 ∧
    keysNodup (importOneSpace data now space (db, c, counts)).1 ∧
    c ≤ (importOneSpace data now space (db, c, counts)).2.1 := by
  obtain ⟨hbs, hbn, hbe⟩ := hb
  obtain ⟨hns, hnn, hne⟩ := hn
  obtain ⟨Ln, hLn⟩ : ∃ k, (relNodes data space.id).length = k := ⟨_, rfl⟩
  obtain ⟨cc, hcc⟩ : ∃ k, (importNodes c now (relNodes data space.id) (c + 1) []).2.2 = k :=
    ⟨_, rfl⟩
  obtain ⟨Ke, hKe⟩ : ∃ k, (importEdges c
      (importNodes c now (relNodes data space.id) (c + 1) []).2.1
      (relEdges data space.id)
      (importNodes c now (relNodes data space.id) (c + 1) []).2.2).1.length = k := ⟨_, rfl⟩
  obtain ⟨d, hd⟩ : ∃ k, (importOneSpace data now space (db, c, counts)).2.1 = k := ⟨_, rfl⟩
  have hMids : (importNodes c now (relNodes data space.id) (c + 1) []).1.map (fun n => n.id) =
      List.range' (c + 1) Ln := by
    rw [importNodes_ids, hLn]
  have hccv : cc = c + 1 + Ln := by
    rw [← hcc, importNodes_ctr, hLn]
  have hEids : (importEdges c (importNodes c now (relNodes data space.id) (c + 1) []).2.1
      (relEdges data space.id) (importNodes c now (relNodes data space.id) (c + 1) []).2.2).1.map (fun e => e.id) =
      List.range' cc Ke := by
    rw [importEdges_ids, hKe, hcc]
  have hdv : d = cc + Ke := by
    rw [← hd, ← hKe, ← hcc]
    show (importEdges c (importNodes c now (relNodes data space.id) (c + 1) []).2.1
      (relEdges data space.id) (importNodes c now (relNodes data space.id) (c + 1) []).2.2).2 = _
    rw [importEdges_ctr]
  refine ⟨⟨?_, ?_, ?_⟩, ⟨?_, ?_, ?_⟩, ?_⟩
  · intro s hs
    rw [hd]
    rcases List.mem_append.mp hs with h | h
    · have := hbs s h
      omega
    · rw [List.mem_singleton] at h
      subst h
      show c < d
      omega
  · intro nd hnd
    rw [hd]
    rcases List.mem_append.mp hnd with h | h
    · have := hbn nd h
      omega
    · have hm : nd.id ∈ (importNodes c now (relNodes data space.id) (c + 1) []).1.map (fun n => n.id) :=
        List.mem_map_of_mem _ h
      rw [hMids, List.mem_range'_1] at hm
      omega
  · intro e he
    rw [hd]
    rcases List.mem_append.mp he with h | h
    · have := hbe e h
      omega
    · have hm : e.id ∈ (importEdges c (importNodes c now (relNodes data space.id) (c + 1) []).2.1
          (relEdges data space.id) (importNodes c now (relNodes data space.id) (c + 1) []).2.2).1.map (fun e => e.id) :=
        List.mem_map_of_mem _ h
      rw [hEids, List.mem_range'_1] at hm
      omega
  · show ((db.spaces ++ [_]).map SpaceRecord.id).Nodup
    rw [List.map_append]
    refine List.Nodup.append hns (by simp) ?_
    intro x hx hx2
    simp only [List.map_cons, List.map_nil, List.mem_singleton] at hx2
    rcases List.mem_map.mp hx with ⟨s, hs, rfl⟩
    have := hbs s hs
    show False
    omega
  · show ((db.nodes ++ (importNodes c now (relNodes data space.id) (c + 1) []).1).map NodeRecord.id).Nodup
    rw [List.map_append]
    refine List.Nodup.append hnn ?_ ?_
    · show ((importNodes c now (relNodes data space.id) (c + 1) []).1.map (fun n => n.id)).Nodup
      rw [hMids]
      exact List.nodup_range' _ _
    · intro x hx hx2
      rcases List.mem_map.mp hx with ⟨nd, hnd, rfl⟩
      have hlt := hbn nd hnd
      have hm : nd.id ∈ (importNodes c now (relNodes data space.id) (c + 1) []).1.map (fun n => n.id) := hx2
      rw [hMids, List.mem_range'_1] at hm
      omega
  · show ((db.edges ++ (importEdges c (importNodes c now (relNodes data space.id) (c + 1) []).2.1
        (relEdges data space.id) (importNodes c now (relNodes data space.id) (c + 1) []).2.2).1).map EdgeRecord.id).Nodup
    rw [List.map_append]
    refine List.Nodup.append hne ?_ ?_
    · show ((importEdges c (importNodes c now (relNodes data space.id) (c + 1) []).2.1
        (relEdges data space.id) (importNodes c now (relNodes data space.id) (c + 1) []).2.2).1.map (fun e => e.id)).Nodup
      rw [hEids]
      exact List.nodup_range' _ _
    · intro x hx hx2
      rcases List.mem_map.mp hx with ⟨e, he, rfl⟩
      have hlt := hbe e he
      have hm : e.id ∈ (importEdges c (importNodes c now (relNodes data space.id) (c + 1) []).2.1
          (relEdges data space.id) (importNodes c now (relNodes data space.id) (c + 1) []).2.2).1.map (fun e => e.id) := hx2
      rw [hEids, List.mem_range'_1] at hm
      omega
  · rw [hd]
    omega


theorem importFold_inv (data : Envelope) (now : Nat) (spaces : List SpaceRecord) :
    ∀ (db : DB) (c : Nat) (counts : ImportCounts), idsBelow db c → keysNodup db →
      idsBelow (spaces.foldl (fun a s => importOneSpace data now s a) (db, c, counts)).1
        (spaces.foldl (fun a s => importOneSpace data now s a) (db, c, counts)).2.1 ∧
      keysNodup (spaces.foldl (fun a s => importOneSpace data now s a) (db, c, counts)).1 ∧
      c ≤ (spaces.foldl (fun a s => importOneSpace data now s a) (db, c, counts)).2.1 := by
  induction spaces with
  | nil => intro db c counts hb hn; exact ⟨hb, hn, Nat.le_refl c⟩
  | cons s rest ih =>
    intro db c counts hb hn
    rw [List.foldl_cons]
    have hstep := importOneSpace_inv data now s db c counts hb hn
    have hrec := ih (importOneSpace data now s (db, c, counts)).1
      (importOneSpace data now s (db, c, counts)).2.1
      (importOneSpace data now s (db, c, counts)).2.2 hstep.1 hstep.2.1
    exact ⟨hrec.1, hrec.2.1, Nat.le_trans hstep.2.2 hrec.2.2⟩

theorem filter_filter_ne {α : Type} (key : α → Nat) (l : List α) (k k' : Nat) (hne : k' ≠ k) :
    (l.filter (fun x => !(key x == k))).filter (fun x => key x == k') =
      l.filter (fun x => key x == k') := by
  rw [List.filter_filter]
  apply List.filter_congr
  intro x _
  by_cases h : (key x == k') = true
  · have : (key x == k) = false := by
      rw [beq_iff_eq] at h
      rw [beq_eq_false_iff_ne, h]
      exact hne
    simp [h, this]
  · simp only [Bool.not_eq_true] at h
    simp [h]

theorem sum_filter_length_le {α : Type} (key : α → Nat) :
    ∀ (ks : List Nat) (l : List α), ks.Nodup →
      (ks.map (fun k => (l.filter (fun x => key x == k)).length)).sum ≤ l.length := by
  intro ks
  induction ks with
  | nil => intro l _; simp
  | cons k rest ih =>
    intro l hnd
    rw [List.nodup_cons] at hnd
    rw [List.map_cons, List.sum_cons]
    have hrw : rest.map (fun k' => (l.filter (fun x => key x == k')).length) =
        rest.map (fun k' => ((l.filter (fun x => !(key x == k))).filter
          (fun x => key x == k')).length) := by
      apply List.map_congr_left
      intro k' hk'
      rw [filter_filter_ne key l k k' (by intro h; exact hnd.1 (h ▸ hk'))]
    rw [hrw]
    have := ih (l.filter (fun x => !(key x == k))) hnd.2
    have hsplit := List.length_eq_length_filter_add (l := l) (fun x => key x == k)
    omega

theorem sum_filter_length_eq {α : Type} (key : α → Nat) :
    ∀ (ks : List Nat) (l : List α), ks.Nodup → (∀ x ∈ l, key x ∈ ks) →
      (ks.map (fun k => (l.filter (fun x => key x == k)).length)).sum = l.length := by
  intro ks
  induction ks with
  | nil =>
    intro l _ hcov
    cases l with
    | nil => simp
    | cons x rest => exact absurd (hcov x (List.mem_cons_self x rest)) (List.not_mem_nil _)
  | cons k rest ih =>
    intro l hnd hcov
    rw [List.nodup_cons] at hnd
    rw [List.map_cons, List.sum_cons]
    have hrw : rest.map (fun k' => (l.filter (fun x => key x == k')).length) =
        rest.map (fun k' => ((l.filter (fun x => !(key x == k))).filter
          (fun x => key x == k')).length) := by
      apply List.map_congr_left
      intro k' hk'
      rw [filter_filter_ne key l k k' (by intro h; exact hnd.1 (h ▸ hk'))]
    rw [hrw]
    have hcov' : ∀ x ∈ l.filter (fun x => !(key x == k)), key x ∈ rest := by
      intro x hx
      rw [List.mem_filter] at hx
      have := hcov x hx.1
      rw [List.mem_cons] at this
      rcases this with h | h
      · exfalso
        have := hx.2
        rw [h] at this
        simp at this
      · exact h
    rw [ih (l.filter (fun x => !(key x == k))) hnd.2 hcov']
    have hsplit := List.length_eq_length_filter_add (l := l) (fun x => key x == k)
    omega

theorem flatten_filter_perm {α : Type} (key : α → Nat) :
    ∀ (ks : List Nat) (l : List α), ks.Nodup → (∀ x ∈ l, key x ∈ ks) →
      ((ks.map (fun k => l.filter (fun x => key x == k))).flatten).Perm l := by
  intro ks
  induction ks with
  | nil =>
    intro l _ hcov
    cases l with
    | nil => simp
    | cons x rest => exact absurd (hcov x (List.mem_cons_self x rest)) (List.not_mem_nil _)
  | cons k rest ih =>
    intro l hnd hcov
    rw [List.nodup_cons] at hnd
    rw [List.map_cons, List.flatten_cons]
    have hrw : rest.map (fun k' => l.filter (fun x => key x == k')) =
        rest.map (fun k' => (l.filter (fun x => !(key x == k))).filter
          (fun x => key x == k')) := by
      apply List.map_congr_left
      intro k' hk'
      rw [filter_filter_ne key l k k' (by intro h; exact hnd.1 (h ▸ hk'))]
    rw [hrw]
    have hcov' : ∀ x ∈ l.filter (fun x => !(key x == k)), key x ∈ rest := by
      intro x hx
      rw [List.mem_filter] at hx
      have := hcov x hx.1
      rw [List.mem_cons] at this
      rcases this with h | h
      · exfalso
        have := hx.2
        rw [h] at this
        simp at this
      · exact h
    have hperm := ih (l.filter (fun x => !(key x == k))) hnd.2 hcov'
    exact List.Perm.trans (List.Perm.append (List.Perm.refl _) hperm)
      (List.filter_append_perm _ l)


theorem find?_map_put (r : AppSettings) :
    ∀ l : List AppSettings, l.any (fun x => x.key == r.key) = true →
      (l.map (fun x => if x.key == r.key then r else x)).find? (fun x => x.key == r.key) =
        some r := by
  intro l
  induction l with
  | nil => intro h; simp at h
  | cons x rest ih =>
    intro h
    rw [List.map_cons, List.find?_cons]
    by_cases hx : (x.key == r.key) = true
    · simp [hx]
    · simp only [Bool.not_eq_true] at hx
      rw [List.any_cons, hx] at h
      simp only [Bool.false_or] at h
      simp only [hx, if_false, Bool.false_eq_true]
      exact ih h

theorem getSettings_putSettings (r : AppSettings) (l : List AppSettings) :
    getSettings r.key (putSettings r l) = some r := by
  unfold putSettings
  split
  · rename_i h
    exact find?_map_put r l h
  · rename_i h
    unfold getSettings
    rw [List.find?_append]
    have hnone : l.find? (fun x => x.key == r.key) = none := by
      rw [List.find?_eq_none]
      intro x hx hpx
      exact h (List.any_eq_true.mpr ⟨x, hx, hpx⟩)
    rw [hnone]
    simp [List.find?_cons]


/-- C9: importing a single exported Space (the envelope produced by
exportSpace, which carries no appSettings field) stores an AppSettings
record that is the fixed record key "app", schemaVersion 2,
lastOpenedSpaceId unset, for every exported store and every target
store: nothing in it is derived from the payload. -/
theorem C9_importData_ignores_payload_appSettings (db : DB) (S : Nat) (now now2 : Nat) (w : World)
    (hS : S ∈ db.spaces.map SpaceRecord.id) :
    (importData (exportSpace S now db) now2 w).1.db.appSettings =
      putSettings (AppSettings.mk "app" currentSchemaVersion none) w.db.appSettings ∧
    (importData (exportSpace S now db) now2 w).1.st.appSettings =
      AppSettings.mk "app" currentSchemaVersion none := by
  rcases List.mem_map.mp hS with ⟨sp0, hsp0, hid⟩
  have hfind : (db.spaces.find? (fun s => s.id == S)).isSome :=
    List.find?_isSome.mpr ⟨sp0, hsp0, by rw [hid]; exact beq_self_eq_true S⟩
  obtain ⟨sp, hsp⟩ := Option.isSome_iff_exists.mp hfind
  have hspaces : (exportSpace S now db).spaces.getD [] = [sp] := by
    show (some (match db.spaces.find? (fun s => s.id == S) with
      | some s => [s]
      | none => [])).getD [] = [sp]
    rw [hsp]
    rfl
  have hmerged : ((((exportSpace S now db).appSettings.getD []).find?
      (fun e => e.key == "app")).bind (fun s => s.lastOpenedSpaceId)) = none := rfl
  have hfoldapp := importFold_appSettings (exportSpace S now db) now2 [sp]
    (w.db, w.ctr, ImportCounts.mk 0 0 0)
  have hcond : (([sp] : List SpaceRecord).length == 0) = false := rfl
  constructor
  · simp only [importData]
    rw [hspaces]
    simp only [hcond, Bool.false_eq_true, if_false]
    rw [hmerged]
    show putSettings _ (List.foldl _ (w.db, w.ctr, ImportCounts.mk 0 0 0) [sp]).1.appSettings = _
    rw [hfoldapp]
  · simp only [importData]
    rw [hspaces]
    simp only [hcond, Bool.false_eq_true, if_false]
    rw [hmerged]
    show (getSettings "app" (putSettings (AppSettings.mk "app" currentSchemaVersion none)
      (List.foldl _ (w.db, w.ctr, ImportCounts.mk 0 0 0) [sp]).1.appSettings)).getD
        defaultAppSettings = _
    rw [hfoldapp]
    have hput := getSettings_putSettings (AppSettings.mk "app" currentSchemaVersion none)
      w.db.appSettings
    rw [show getSettings "app" (putSettings (AppSettings.mk "app" currentSchemaVersion none)
      w.db.appSettings) = some (AppSettings.mk "app" currentSchemaVersion none) from hput]
    rfl


/-- C5 amended: for every import payload whose spaces carry pairwise
distinct ids and that contains an edge whose from or to id is absent
from the payload node list of its Space, importData completes, returns
counts, and its addedEdges is strictly less than the number of edges in
the payload; each unmappable edge is dropped. -/
theorem C5_import_drops_dangling_edges (payload : Envelope) (now : Nat) (w : World)
    (hnd : ((payload.spaces.getD []).map SpaceRecord.id).Nodup)
    (hdangle : ∃ e ∈ payload.edges.getD [], ∃ s ∈ payload.spaces.getD [],
      e.spaceId = s.id ∧ edgeMappable payload s.id e = false) :
    ∃ cts, (importData payload now w).2 = some cts ∧
      cts.addedEdges < (payload.edges.getD []).length := by
  obtain ⟨e0, he0, s0, hs0, hesp, hmap⟩ := hdangle
  have hpos : 0 < (payload.spaces.getD []).length :=
    List.length_pos.mpr (List.ne_nil_of_mem hs0)
  have hlen : ((payload.spaces.getD []).length == 0) = false :=
    beq_eq_false_iff_ne.mpr (Nat.ne_of_gt hpos)
  have hout : (importData payload now w).2 =
      some ((payload.spaces.getD []).foldl (fun acc s => importOneSpace payload now s acc)
        (w.db, w.ctr, ImportCounts.mk 0 0 0)).2.2 := by
    simp only [importData]
    rw [hlen]
    simp only [Bool.false_eq_true, if_false]
  rw [hout, importFold_counts]
  refine ⟨_, rfl, ?_⟩
  show 0 + ((payload.spaces.getD []).map (fun s => addedEdgesCount payload s.id)).sum <
    (payload.edges.getD []).length
  rw [Nat.zero_add]
  have hstrict : ((payload.spaces.getD []).map (fun s => addedEdgesCount payload s.id)).sum <
      ((payload.spaces.getD []).map (fun s => (relEdges payload s.id).length)).sum := by
    apply List.sum_lt_sum
    · intro s _
      exact List.countP_le_length _
    · refine ⟨s0, hs0, ?_⟩
      have hmem : e0 ∈ relEdges payload s0.id := by
        unfold relEdges
        rw [List.mem_filter]
        exact ⟨he0, by rw [hesp]; exact beq_self_eq_true _⟩
      have hle : addedEdgesCount payload s0.id ≤ (relEdges payload s0.id).length :=
        List.countP_le_length _
      have hne2 : addedEdgesCount payload s0.id ≠ (relEdges payload s0.id).length := by
        intro hcontra
        have := List.countP_eq_length.mp hcontra e0 hmem
        rw [hmap] at this
        exact Bool.false_ne_true this
      omega
  have hbound : ((payload.spaces.getD []).map (fun s => (relEdges payload s.id).length)).sum ≤
      (payload.edges.getD []).length := by
    have hrw : (payload.spaces.getD []).map (fun s => (relEdges payload s.id).length) =
        ((payload.spaces.getD []).map SpaceRecord.id).map
          (fun k => ((payload.edges.getD []).filter (fun e => e.spaceId == k)).length) := by
      rw [List.map_map]
      rfl
    rw [hrw]
    exact sum_filter_length_le EdgeRecord.spaceId ((payload.spaces.getD []).map SpaceRecord.id)
      (payload.edges.getD []) hnd
  omega




/-- C5 counterexample: a payload listing the same Space record twice
processes that Space twice, so its intact Edge is imported twice while
the dangling Edge (toId 99 absent from the node list) is dropped twice:
importData returns addedEdges = 2, not strictly less than the 2 Edges of
the payload, refuting the claim for arbitrary payloads. -/
theorem C5_counterexample :
    (∃ e ∈ exPayloadDup.edges.getD [], ∃ s ∈ exPayloadDup.spaces.getD [],
      e.spaceId = s.id ∧ edgeMappable exPayloadDup s.id e = false) ∧
    ((importData exPayloadDup 7 emptyWorld).2.map (fun cts => cts.addedEdges)) = some 2 ∧
    (exPayloadDup.edges.getD []).length = 2 := by decide


theorem importData_components (payload : Envelope) (now : Nat) (w : World)
    (hlen : ((payload.spaces.getD []).length == 0) = false) :
    (importData payload now w).2 = some ((payload.spaces.getD []).foldl
      (fun acc s => importOneSpace payload now s acc)
      (w.db, w.ctr, ImportCounts.mk 0 0 0)).2.2 ∧
    (importData payload now w).1.db.spaces = ((payload.spaces.getD []).foldl
      (fun acc s => importOneSpace payload now s acc)
      (w.db, w.ctr, ImportCounts.mk 0 0 0)).1.spaces ∧
    (importData payload now w).1.db.nodes = ((payload.spaces.getD []).foldl
      (fun acc s => importOneSpace payload now s acc)
      (w.db, w.ctr, ImportCounts.mk 0 0 0)).1.nodes ∧
    (importData payload now w).1.db.edges = ((payload.spaces.getD []).foldl
      (fun acc s => importOneSpace payload now s acc)
      (w.db, w.ctr, ImportCounts.mk 0 0 0)).1.edges ∧
    (importData payload now w).1.ctr = ((payload.spaces.getD []).foldl
      (fun acc s => importOneSpace payload now s acc)
      (w.db, w.ctr, ImportCounts.mk 0 0 0)).2.1 := by
  refine ⟨?_, ?_, ?_, ?_, ?_⟩ <;>
    · simp only [importData]
      rw [hlen]
      simp only [Bool.false_eq_true, if_false]


/-- C4 counterexample: the round-trip is not edge-preserving on every
store state.  Starting from the example store with Space 2 active,
linkNodes 10 99 stores a Space-2 Edge whose endpoints name no Node of
Space 2 (endpoints are unvalidated, as C10 shows).  The store then
holds 2 Edges, but exporting it and importing the export into an empty
store remaps Edge endpoints through the per-Space node table, finds
none for the dangling Edge, and silently drops it: addedEdges = 1 and
the resulting store holds 1 Edge, so "same number of Edges" fails. -/
theorem C4_counterexample :
    (linkNodes 10 99 (some "related") exWorldBeta).db.edges.length = 2 ∧
    ((importData (exportAll 5 (linkNodes 10 99 (some "related") exWorldBeta).db) 6
        (World.mk DB.empty initialState 200)).2.map (fun cts => cts.addedEdges)) = some 1 ∧
    (importData (exportAll 5 (linkNodes 10 99 (some "related") exWorldBeta).db) 6
        (World.mk DB.empty initialState 200)).1.db.edges.length = 1 := by decide

/-- C4 amended: for stores whose Edges' endpoints resolve to Nodes of
their own Space (with the table invariants: distinct Space ids, every
Node and Edge homed in an existing Space, at least one Space),
exporting the whole store and importing the export into an empty store
returns the exact table counts, reproduces the Spaces, Nodes and Edges
with the same node titles, tags and blocks (as a permutation of
contents), under pairwise-distinct freshly drawn identifiers, and
importing the same export a second time into the resulting store still
leaves every primary key distinct, so no add can collide or throw.  On
a store holding a dangling-endpoint Edge the import drops that Edge
instead. -/
theorem C4_export_import_roundtrip (db : DB) (st0 : MiCaState) (c0 now now2 now3 : Nat)
    (hne : db.spaces ≠ [])
    (hnd : (db.spaces.map SpaceRecord.id).Nodup)
    (hncov : ∀ n ∈ db.nodes, n.spaceId ∈ db.spaces.map SpaceRecord.id)
    (hecov : ∀ e ∈ db.edges, e.spaceId ∈ db.spaces.map SpaceRecord.id)
    (hefrom : ∀ e ∈ db.edges, ∃ n ∈ db.nodes, n.id = e.fromId ∧ n.spaceId = e.spaceId)
    (heto : ∀ e ∈ db.edges, ∃ n ∈ db.nodes, n.id = e.toId ∧ n.spaceId = e.spaceId) :
    (importData (exportAll now db) now2 (World.mk DB.empty st0 c0)).2 =
      some (ImportCounts.mk db.spaces.length db.nodes.length db.edges.length) ∧
    (importData (exportAll now db) now2 (World.mk DB.empty st0 c0)).1.db.spaces.length =
      db.spaces.length ∧
    (importData (exportAll now db) now2 (World.mk DB.empty st0 c0)).1.db.nodes.length =
      db.nodes.length ∧
    (importData (exportAll now db) now2 (World.mk DB.empty st0 c0)).1.db.edges.length =
      db.edges.length ∧
    ((importData (exportAll now db) now2 (World.mk DB.empty st0 c0)).1.db.nodes.map
      nodeContent).Perm (db.nodes.map nodeContent) ∧
    keysNodup (importData (exportAll now db) now2 (World.mk DB.empty st0 c0)).1.db ∧
    idsBelow (importData (exportAll now db) now2 (World.mk DB.empty st0 c0)).1.db
      (importData (exportAll now db) now2 (World.mk DB.empty st0 c0)).1.ctr ∧
    keysNodup (importData (exportAll now db) now3
      (importData (exportAll now db) now2 (World.mk DB.empty st0 c0)).1).1.db := by
  have hpl : (exportAll now db).spaces.getD [] = db.spaces := rfl
  have hlen : (((exportAll now db).spaces.getD []).length == 0) = false := by
    rw [hpl]
    exact beq_eq_false_iff_ne.mpr (by
      intro h
      exact hne (List.length_eq_zero.mp h))
  have hrelN : ∀ sid, relNodes (exportAll now db) sid =
      db.nodes.filter (fun n => n.spaceId == sid) := fun _ => rfl
  have hrelE : ∀ sid, relEdges (exportAll now db) sid =
      db.edges.filter (fun e => e.spaceId == sid) := fun _ => rfl
  -- sum of per-space node counts is the node count
  have hsumN : (db.spaces.map (fun s => (relNodes (exportAll now db) s.id).length)).sum =
      db.nodes.length := by
    have hrw : db.spaces.map (fun s => (relNodes (exportAll now db) s.id).length) =
        (db.spaces.map SpaceRecord.id).map
          (fun k => (db.nodes.filter (fun n => n.spaceId == k)).length) := by
      rw [List.map_map]
      rfl
    rw [hrw]
    exact sum_filter_length_eq NodeRecord.spaceId (db.spaces.map SpaceRecord.id) db.nodes hnd hncov
  -- every related edge is mappable, so per-space added edges are all related edges
  have hmappable : ∀ s ∈ db.spaces, addedEdgesCount (exportAll now db) s.id =
      (relEdges (exportAll now db) s.id).length := by
    intro s _
    unfold addedEdgesCount
    rw [List.countP_eq_length]
    intro e he
    rw [hrelE, List.mem_filter] at he
    unfold edgeMappable
    rw [Bool.and_eq_true]
    constructor
    · rcases hefrom e he.1 with ⟨n, hn, hnid, hnsp⟩
      refine List.any_eq_true.mpr ⟨n, ?_, by rw [hnid]; exact beq_self_eq_true _⟩
      rw [hrelN, List.mem_filter]
      refine ⟨hn, ?_⟩
      rw [hnsp]
      exact he.2
    · rcases heto e he.1 with ⟨n, hn, hnid, hnsp⟩
      refine List.any_eq_true.mpr ⟨n, ?_, by rw [hnid]; exact beq_self_eq_true _⟩
      rw [hrelN, List.mem_filter]
      refine ⟨hn, ?_⟩
      rw [hnsp]
      exact he.2
  have hsumE : (db.spaces.map (fun s => addedEdgesCount (exportAll now db) s.id)).sum =
      db.edges.length := by
    rw [List.map_congr_left hmappable]
    have hrw : db.spaces.map (fun s => (relEdges (exportAll now db) s.id).length) =
        (db.spaces.map SpaceRecord.id).map
          (fun k => (db.edges.filter (fun e => e.spaceId == k)).length) := by
      rw [List.map_map]
      rfl
    rw [hrw]
    exact sum_filter_length_eq EdgeRecord.spaceId (db.spaces.map SpaceRecord.id) db.edges hnd hecov
  obtain ⟨hc1, hc2, hc3, hc4, hc5⟩ :=
    importData_components (exportAll now db) now2 (World.mk DB.empty st0 c0) hlen
  rw [hpl] at hc1 hc2 hc3 hc4 hc5
  -- the in-memory Perm of node contents
  have hperm : ((importData (exportAll now db) now2 (World.mk DB.empty st0 c0)).1.db.nodes.map
      nodeContent).Perm (db.nodes.map nodeContent) := by
    rw [hc3]
    have hcontent := importFold_nodes_content (exportAll now db) now2 db.spaces
      ((World.mk DB.empty st0 c0).db, (World.mk DB.empty st0 c0).ctr, ImportCounts.mk 0 0 0)
    rw [hcontent]
    show ([] ++ (db.spaces.map (fun (s : SpaceRecord) => (relNodes (exportAll now db) s.id).map
      nodeContent)).flatten).Perm ((db.nodes.map nodeContent))
    rw [List.nil_append]
    have hrw : db.spaces.map (fun s => (relNodes (exportAll now db) s.id).map nodeContent) =
        (db.spaces.map SpaceRecord.id).map
          (fun k => (db.nodes.filter (fun n => n.spaceId == k)).map nodeContent) := by
      rw [List.map_map]
      rfl
    rw [hrw]
    have hjm : ((db.spaces.map SpaceRecord.id).map
        (fun k => (db.nodes.filter (fun n => n.spaceId == k)).map nodeContent)).flatten =
        (((db.spaces.map SpaceRecord.id).map
          (fun k => db.nodes.filter (fun n => n.spaceId == k))).flatten).map nodeContent := by
      simp only [List.map_flatten, List.map_map]
      rfl
    rw [hjm]
    exact List.Perm.map nodeContent
      (flatten_filter_perm NodeRecord.spaceId (db.spaces.map SpaceRecord.id) db.nodes hnd hncov)
  -- invariants after the first import
  have hinv1 := importFold_inv (exportAll now db) now2 db.spaces DB.empty c0
    (ImportCounts.mk 0 0 0) ⟨by simp [DB.empty], by simp [DB.empty], by simp [DB.empty]⟩
    ⟨by simp [DB.empty], by simp [DB.empty], by simp [DB.empty]⟩
  have hkeys1 : keysNodup (importData (exportAll now db) now2 (World.mk DB.empty st0 c0)).1.db := by
    obtain ⟨_, ⟨k1, k2, k3⟩, _⟩ := hinv1
    exact ⟨by rw [hc2]; exact k1, by rw [hc3]; exact k2, by rw [hc4]; exact k3⟩
  have hbelow1 : idsBelow (importData (exportAll now db) now2 (World.mk DB.empty st0 c0)).1.db
      (importData (exportAll now db) now2 (World.mk DB.empty st0 c0)).1.ctr := by
    obtain ⟨⟨b1, b2, b3⟩, _, _⟩ := hinv1
    refine ⟨?_, ?_, ?_⟩
    · rw [hc2, hc5]; exact b1
    · rw [hc3, hc5]; exact b2
    · rw [hc4, hc5]; exact b3
  refine ⟨?_, ?_, ?_, ?_, hperm, hkeys1, hbelow1, ?_⟩
  · rw [hc1, importFold_counts]
    simp only [Nat.zero_add]
    rw [hsumN, hsumE]
  · rw [hc2, importFold_spaces_len]
    simp [DB.empty]
  · have := hperm.length_eq
    rw [List.length_map, List.length_map] at this
    exact this
  · rw [hc4, importFold_edges_len]
    rw [hsumE]
    simp [DB.empty]
  · -- second import keeps the keys distinct
    obtain ⟨hc1b, hc2b, hc3b, hc4b, hc5b⟩ :=
      importData_components (exportAll now db) now3
        (importData (exportAll now db) now2 (World.mk DB.empty st0 c0)).1 hlen
    rw [hpl] at hc2b hc3b hc4b
    have hinv2 := importFold_inv (exportAll now db) now3 db.spaces
      (importData (exportAll now db) now2 (World.mk DB.empty st0 c0)).1.db
      (importData (exportAll now db) now2 (World.mk DB.empty st0 c0)).1.ctr
      (ImportCounts.mk 0 0 0) hbelow1 hkeys1
    obtain ⟨_, ⟨k1, k2, k3⟩, _⟩ := hinv2
    exact ⟨by rw [hc2b]; exact k1, by rw [hc3b]; exact k2, by rw [hc4b]; exact k3⟩

/-- Witness for C9 on the example store: importing the export of Space
1 into the example world stores the fixed settings record. -/
theorem C9_witness :
    (importData (exportSpace 1 1 exDB) 2 exWorld).1.db.appSettings =
      putSettings (AppSettings.mk "app" currentSchemaVersion none) exWorld.db.appSettings ∧
    (importData (exportSpace 1 1 exDB) 2 exWorld).1.st.appSettings =
      AppSettings.mk "app" currentSchemaVersion none :=
  C9_importData_ignores_payload_appSettings exDB 1 1 2 exWorld (by decide)

/-- Witness for the amended C5 at a concrete dangling payload. -/
theorem C5_witness :
    ∃ cts, (importData exPayloadDangle 7 emptyWorld).2 = some cts ∧
      cts.addedEdges < (exPayloadDangle.edges.getD []).length :=
  C5_import_drops_dangling_edges exPayloadDangle 7 emptyWorld (by decide)
    ⟨{ id := 21, spaceId := 1, fromId := 10, toId := 99, relation := some "related" },
      by decide, exSpace1, by decide, by decide, by decide⟩

/-- Witness for C4 on the example store: the returned counts match the
example tables, and a double import keeps all primary keys distinct. -/
theorem C4_witness :
    (importData (exportAll 1 exDB) 2 (World.mk DB.empty initialState 0)).2 =
      some (ImportCounts.mk 2 2 1) ∧
    keysNodup (importData (exportAll 1 exDB) 3
      (importData (exportAll 1 exDB) 2 (World.mk DB.empty initialState 0)).1).1.db := by
  have h := C4_export_import_roundtrip exDB initialState 0 1 2 3
    (by decide) (by decide) (by decide) (by decide) (by decide) (by decide)
  exact ⟨h.1, h.2.2.2.2.2.2.2⟩

end MiCa
